import Mathlib

/-!
A shallow embedding of `src/lib/converter/factories/declaration.ts`
(the declaration reflection builder: `createDeclaration`, `setupDeclaration`,
`mergeDeclarations`) together with the collaborator shapes it consumes
(AST nodes with combined modifier flags, container reflections, the
conversion context), and proofs of the specified properties.

Machine-level conventions of the embedding:
 - `ts.getCombinedModifierFlags(node)` is an external compiler collaborator;
   a `Node` carries its result directly as the `modifiers` field.
 - JavaScript `Array.prototype.indexOf` returns `-1` when the element is
   absent; `jsIndexOf` reproduces that (over `Int`).
 - The `forEach` scan over `container.children` assigns `child = n` on every
   match, so the LAST matching child wins; `findLastMatch` reproduces that.
 - TS reference identity `node.parent === context.inheritParent` is modelled
   as structural equality of `Option Node`.
 - In-place mutation of the matched child during a merge is modelled by
   replacing it (at its index) in the returned children list; `return null`
   from `mergeDeclarations` is the `Bool` component `false` of its result.
-/

namespace Typedoc

/-- Reflection kinds referenced by `declaration.ts` (a fragment of the
`ReflectionKind` enum of `models/index`). -/
inductive ReflectionKind where
  | Global
  | ExternalModule
  | Module
  | Enum
  | EnumMember
  | Variable
  | Function
  | Class
  | Interface
  | Constructor
  | Property
  | Method
  | CallSignature
  | IndexSignature
  | ConstructorSignature
  | Parameter
  | TypeLiteral
  | TypeParameter
  | Accessor
  | GetSignature
  | SetSignature
  | ObjectLiteral
  | Event
deriving DecidableEq, Repr

/-- TypeScript syntax kinds referenced by `declaration.ts`; `Other` stands for
every syntax kind the file never tests for. -/
inductive SyntaxKind where
  | VariableDeclaration
  | VariableDeclarationList
  | FunctionDeclaration
  | Constructor
  | ClassDeclaration
  | Other
deriving DecidableEq, Repr

/-- The two-valued conversion mode setting (`SourceFileMode` of `../converter`);
only `File` is tested for. -/
inductive SourceFileMode where
  | File
  | Modules
deriving DecidableEq, Repr

/-- A compiler symbol (collaborator shape): only its name (used for naming the
reflection) and an identity tag are relevant here. -/
structure Symbol where
  id : Nat
  name : String
deriving DecidableEq, Repr

/-- The result of `ts.getCombinedModifierFlags` on a node: one boolean per
modifier bit the file tests (`ts.ModifierFlags`). -/
structure ModifierFlags where
  Export : Bool
  Ambient : Bool
  Private : Bool
  Protected : Bool
  Public : Bool
  Static : Bool
  Abstract : Bool
  Readonly : Bool
deriving DecidableEq, Repr

/-- Combined modifier flags of a missing node: all bits clear. -/
def ModifierFlags.empty : ModifierFlags :=
  { Export := false, Ambient := false, Private := false, Protected := false,
    Public := false, Static := false, Abstract := false, Readonly := false }

/-- The own data of one AST node (collaborator shape): an identity tag
(modelling reference identity of TS nodes), its syntax discriminator, the
result of `ts.getCombinedModifierFlags` on it, its optional `symbol` and
`localSymbol`, and the presence of a `questionToken`. -/
structure NodeCore where
  id : Nat
  kind : SyntaxKind
  modifiers : ModifierFlags
  symbol : Option Symbol
  localSymbol : Option Symbol
  questionToken : Bool
deriving DecidableEq, Repr

/-- An AST node: its own data plus the chain of its ancestors (innermost
first), which realises the `parent` link. -/
structure Node where
  self : NodeCore
  ancestors : List NodeCore
deriving DecidableEq, Repr

def Node.kind (n : Node) : SyntaxKind := n.self.kind

def Node.modifiers (n : Node) : ModifierFlags := n.self.modifiers

def Node.symbol (n : Node) : Option Symbol := n.self.symbol

def Node.localSymbol (n : Node) : Option Symbol := n.self.localSymbol

def Node.questionToken (n : Node) : Bool := n.self.questionToken

/-- The `node.parent` link. -/
def Node.parent (n : Node) : Option Node :=
  match n.ancestors with
  | [] => none
  | a :: rest => some { self := a, ancestors := rest }

/-- Embedding of `ts.getCombinedModifierFlags(node)`: external collaborator, the node
carries its result. -/
def getCombinedModifierFlags (node : Node) : ModifierFlags :=
  node.modifiers

/-- Embedding of `ts.getCombinedModifierFlags` applied to an optional node
(`node.parent.parent` of a variable-declaration-list member). -/
def getCombinedModifierFlagsOpt : Option Node → ModifierFlags
  | some n => getCombinedModifierFlags n
  | none => ModifierFlags.empty

/-- The boolean-valued semantic tags of a reflection (`ReflectionFlags`). -/
structure ReflectionFlags where
  isExported : Bool
  isPrivate : Bool
  isProtected : Bool
  isPublic : Bool
  isStatic : Bool
  isOptional : Bool
  isAbstract : Bool
  isReadonly : Bool
  isAmbient : Bool
  isExternal : Bool
  isConstructorProperty : Bool
deriving DecidableEq, Repr

/-- All tags clear: state of a freshly constructed reflection. -/
def ReflectionFlags.empty : ReflectionFlags :=
  { isExported := false, isPrivate := false, isProtected := false,
    isPublic := false, isStatic := false, isOptional := false,
    isAbstract := false, isReadonly := false, isAmbient := false,
    isExternal := false, isConstructorProperty := false }

/-- The `ReflectionFlag` enum values `declaration.ts` passes to `setFlag`. -/
inductive ReflectionFlag where
  | Exported
  | Private
  | Protected
  | Public
  | Static
  | Optional
  | Abstract
  | Readonly
  | Ambient
  | External
  | ConstructorProperty
deriving DecidableEq, Repr

/-- Embedding of `ReflectionFlags.setFlag(flag, value)`: set one tag to the given value. -/
def ReflectionFlags.setFlag (f : ReflectionFlags) (flag : ReflectionFlag) (value : Bool) :
    ReflectionFlags :=
  match flag with
  | .Exported => { f with isExported := value }
  | .Private => { f with isPrivate := value }
  | .Protected => { f with isProtected := value }
  | .Public => { f with isPublic := value }
  | .Static => { f with isStatic := value }
  | .Optional => { f with isOptional := value }
  | .Abstract => { f with isAbstract := value }
  | .Readonly => { f with isReadonly := value }
  | .Ambient => { f with isAmbient := value }
  | .External => { f with isExternal := value }
  | .ConstructorProperty => { f with isConstructorProperty := value }

/-- The value `createReferenceType(context, symbol, true)` produces
(collaborator from `./reference`): a reference wrapping the symbol, with the
is-base-type-reference flag. -/
structure ReferenceType where
  symbol : Option Symbol
  isBaseTypeRef : Bool
deriving DecidableEq, Repr

/-- Modelled from the spec: the reference-type constructor collaborator
(`createReferenceType` of `./reference`, not part of this file): "given a
symbol and an is-base-type-reference flag, produces a reference value
suitable for `inheritedFrom` / `overwrites`", always invoked here with the
flag set. -/
def createReferenceType (symbol : Option Symbol) : ReferenceType :=
  { symbol := symbol, isBaseTypeRef := true }

/-- A call signature of a reflection: only its provenance references matter
to `declaration.ts` (`getAllSignatures()` walks them to stamp
`inheritedFrom` / `overwrites`). -/
structure Signature where
  inheritedFrom : Option ReferenceType
  overwrites : Option ReferenceType
deriving DecidableEq, Repr

/-- A declaration reflection: the fields `declaration.ts` reads or writes.
`signatures` stands for the collection `getAllSignatures()` returns (empty on
a freshly constructed reflection; possibly populated on an existing child by
conversion steps between builder invocations). -/
structure DeclarationReflection where
  name : String
  kind : ReflectionKind
  flags : ReflectionFlags
  inheritedFrom : Option ReferenceType
  overwrites : Option ReferenceType
  signatures : List Signature
deriving DecidableEq, Repr

/-- Embedding of `reflection.setFlag(flag, value)`. -/
def DeclarationReflection.setFlag (r : DeclarationReflection) (flag : ReflectionFlag)
    (value : Bool) : DeclarationReflection :=
  { r with flags := r.flags.setFlag flag value }

/-- Embedding of `reflection.getAllSignatures()`. -/
def DeclarationReflection.getAllSignatures (r : DeclarationReflection) : List Signature :=
  r.signatures

/-- The container reflection (`context.scope`): its kind, its own resolved
flags, whether it is the `ProjectReflection` (the `instanceof` test), and its
mutable children sequence. -/
structure ContainerReflection where
  kind : ReflectionKind
  flags : ReflectionFlags
  isProject : Bool
  children : List DeclarationReflection
deriving DecidableEq, Repr

/-- The converter settings `declaration.ts` consults. -/
structure ConverterSettings where
  excludeNotExported : Bool
  mode : SourceFileMode
deriving DecidableEq, Repr

/-- The conversion context state consumed by `declaration.ts`. -/
structure Context where
  scope : ContainerReflection
  isDeclaration : Bool
  isExternal : Bool
  isInherit : Bool
  inheritParent : Option Node
  inherited : List String
  converter : ConverterSettings
deriving DecidableEq, Repr

/-- The `nonStaticKinds` list: reflection kinds that never should be static. -/
def nonStaticKinds : List ReflectionKind :=
  [ReflectionKind.Class, ReflectionKind.Interface, ReflectionKind.Module]

/-- The `considerInheritedExportKinds` list: kinds for whom the exported flag of the
container reflection should be considered. -/
def considerInheritedExportKinds : List ReflectionKind :=
  [ReflectionKind.Accessor, ReflectionKind.Constructor,
   ReflectionKind.ConstructorSignature, ReflectionKind.EnumMember,
   ReflectionKind.Event, ReflectionKind.GetSignature,
   ReflectionKind.IndexSignature, ReflectionKind.Method,
   ReflectionKind.Parameter, ReflectionKind.Property,
   ReflectionKind.SetSignature, ReflectionKind.TypeParameter]

/-- JavaScript `Array.prototype.indexOf` (returns `-1` when absent),
counting from `i`. -/
def jsIndexOfAux {α : Type} [DecidableEq α] (l : List α) (a : α) (i : Int) : Int :=
  match l with
  | [] => -1
  | x :: xs => if x = a then i else jsIndexOfAux xs a (i + 1)

/-- JavaScript `Array.prototype.indexOf`. -/
def jsIndexOf {α : Type} [DecidableEq α] (l : List α) (a : α) : Int :=
  jsIndexOfAux l a 0

/-- The ranked-precedence list of `mergeDeclarations`
(`const weights = [Module, Enum, Class]`). -/
def kindWeights : List ReflectionKind :=
  [ReflectionKind.Module, ReflectionKind.Enum, ReflectionKind.Class]

/-- Lines 51-60 of `declaration.ts`: ensure we have a name for the
reflection. `if (!name)` treats the empty string like a missing argument
(JS falsiness); it falls back to `localSymbol.name`, then `symbol.name`,
and yields nothing when neither symbol exists. -/
def resolveName (node : Node) (nameArg : Option String) : Option String :=
  if nameArg.getD "" = "" then
    match node.localSymbol with
    | some s => some s.name
    | none =>
      match node.symbol with
      | some s => some s.name
      | none => none
  else nameArg

/-- Lines 64-88 of `declaration.ts`: resolve the exported flag of the node.
First decide whether the container's exported state is inherited, then force
`true` for external modules / ambient declarations / project scope in
single-file mode, else OR in the explicit export modifier (taken from the
variable statement for members of a variable declaration list). -/
def resolveExported (context : Context) (container : ContainerReflection)
    (node : Node) (kind : ReflectionKind) : Bool :=
  let modifiers := getCombinedModifierFlags node
  let inherited : Bool :=
    if container.kind ∈ [ReflectionKind.Module, ReflectionKind.ExternalModule]
        ∨ ((kind ∉ considerInheritedExportKinds
              ∨ node.kind = SyntaxKind.VariableDeclaration
              ∨ node.kind = SyntaxKind.FunctionDeclaration)
            ∧ container.kind ∉ [ReflectionKind.ObjectLiteral, ReflectionKind.TypeLiteral])
    then false
    else container.flags.isExported
  if kind = ReflectionKind.ExternalModule ∨ context.isDeclaration = true
      ∨ modifiers.Ambient = true
      ∨ (container.isProject = true ∧ context.isDeclaration = false
          ∧ context.converter.mode = SourceFileMode.File)
  then true
  else
    match node.parent with
    | some p =>
      if p.kind = SyntaxKind.VariableDeclarationList then
        let parentModifiers := getCombinedModifierFlagsOpt p.parent
        inherited || parentModifiers.Export
      else inherited || modifiers.Export
    | none => inherited || modifiers.Export

/-- Lines 100-112 of `declaration.ts`: resolve
`(isConstructorProperty, isStatic)`. Kinds in `nonStaticKinds` are never
static; inside a Class container a node parented by a constructor becomes a
constructor property, and a node whose parent is absent or not a class
declaration is forced static. -/
def resolveStatic (container : ContainerReflection) (node : Node)
    (kind : ReflectionKind) : Bool × Bool :=
  if kind ∈ nonStaticKinds then (false, false)
  else
    let isStatic := (getCombinedModifierFlags node).Static
    if container.kind = ReflectionKind.Class then
      match node.parent with
      | some p =>
        if p.kind = SyntaxKind.Constructor then (true, isStatic)
        else if p.kind ≠ SyntaxKind.ClassDeclaration then (false, true)
        else (false, isStatic)
      | none => (false, true)
    else (false, isStatic)

/-- Lines 114-121 of `declaration.ts`: the `forEach` scan over
`container.children` for a child with the same name and static flag. Every
match overwrites the `child` variable, so the last matching child (and its
index) wins. -/
def findLastMatch (children : List DeclarationReflection) (name : String)
    (isStatic : Bool) : Option (Nat × DeclarationReflection) :=
  match children with
  | [] => none
  | n :: rest =>
    match findLastMatch rest name isStatic with
    | some (i, c) => some (i + 1, c)
    | none =>
      if n.name = name ∧ n.flags.isStatic = isStatic then some (0, n) else none

/-- Lines 157-181 of `declaration.ts` (`setupDeclaration`): stamp the
modifier-projection flags onto the newly created reflection, then, during an
inheritance walk whose source parents this node (or for a constructor
property), record `inheritedFrom` — write-once — on the reflection and on
all its signatures. -/
def setupDeclaration (context : Context) (reflection : DeclarationReflection)
    (node : Node) : DeclarationReflection :=
  let modifiers := getCombinedModifierFlags node
  let r := ((((((reflection.setFlag ReflectionFlag.External context.isExternal).setFlag
      ReflectionFlag.Protected modifiers.Protected).setFlag
      ReflectionFlag.Public modifiers.Public).setFlag
      ReflectionFlag.Optional node.questionToken).setFlag
      ReflectionFlag.Abstract modifiers.Abstract).setFlag
      ReflectionFlag.Readonly modifiers.Readonly).setFlag
      ReflectionFlag.Ambient modifiers.Ambient
  if context.isInherit = true
      ∧ (node.parent = context.inheritParent ∨ r.flags.isConstructorProperty = true) then
    if r.inheritedFrom = none then
      { r with
        inheritedFrom := some (createReferenceType node.symbol),
        signatures := r.signatures.map
          (fun s => { s with inheritedFrom := some (createReferenceType node.symbol) }) }
    else r
  else r

/-- Lines 192-217 of `declaration.ts` (`mergeDeclarations`): reconcile the
kind by the ranked precedence `kindWeights`, then, when the inheritance
override check fires, record `overwrites` — write-once — on the reflection
and all its signatures and return no usable result. The first component is
the reflection as left in the children list (TS mutates it in place); the
second is `false` exactly when TS returns `null`. -/
def mergeDeclarations (context : Context) (reflection : DeclarationReflection)
    (node : Node) (kind : ReflectionKind) : DeclarationReflection × Bool :=
  let r :=
    if reflection.kind = kind then reflection
    else
      let kindWeight := jsIndexOf kindWeights kind
      let childKindWeight := jsIndexOf kindWeights reflection.kind
      if kindWeight > childKindWeight then { reflection with kind := kind }
      else reflection
  if context.isInherit = true
      ∧ jsIndexOf context.inherited r.name ≠ -1
      ∧ (node.parent = context.inheritParent ∨ r.flags.isConstructorProperty = true) then
    let r2 :=
      if r.overwrites = none then
        { r with
          overwrites := some (createReferenceType node.symbol),
          signatures := r.signatures.map
            (fun s => { s with overwrites := some (createReferenceType node.symbol) }) }
      else r
    (r2, false)
  else (r, true)

/-- The observable outcome of one `createDeclaration` invocation: the
returned reflection (or nothing), the container's children afterwards, the
reflections registered with the context registry during the call, and the
payloads of the `EVENT_CREATE_DECLARATION` notifications fired during the
call. -/
structure CreateResult where
  result : Option DeclarationReflection
  children : List DeclarationReflection
  registered : List DeclarationReflection
  events : List DeclarationReflection
deriving DecidableEq, Repr

/-- A `createDeclaration` result with no reflection and the container's
children untouched (the `return null` paths). -/
def CreateResult.skip (children : List DeclarationReflection) : CreateResult :=
  { result := none, children := children, registered := [], events := [] }

/-- Lines 45-147 of `declaration.ts` (`createDeclaration`): resolve the name,
the exported flag (with the exclude-not-exported policy), the private flag
(with the private-during-inheritance policy) and the static flag; then find
an existing child with the same `(name, isStatic)` pair and either create a
new reflection (flags applied, provenance set up, registered, appended) or
merge with the existing one; finally fire the creation notification when a
reflection results. The container is `context.scope` (the precondition that
it is a container reflection is carried by the type). -/
def createDeclaration (context : Context) (node : Node) (kind : ReflectionKind)
    (nameArg : Option String) : CreateResult :=
  let container := context.scope
  match resolveName node nameArg with
  | none => CreateResult.skip container.children
  | some name =>
    let modifiers := getCombinedModifierFlags node
    let isExported := resolveExported context container node kind
    if isExported = false ∧ context.converter.excludeNotExported = true then
      CreateResult.skip container.children
    else
      let isPrivate := modifiers.Private
      if context.isInherit = true ∧ isPrivate = true then
        CreateResult.skip container.children
      else
        let cs := resolveStatic container node kind
        let isConstructorProperty := cs.1
        let isStatic := cs.2
        let children := container.children
        match findLastMatch children name isStatic with
        | none =>
          let blank : DeclarationReflection :=
            { name := name, kind := kind, flags := ReflectionFlags.empty,
              inheritedFrom := none, overwrites := none, signatures := [] }
          let flagged := (((blank.setFlag ReflectionFlag.Static isStatic).setFlag
              ReflectionFlag.Private isPrivate).setFlag
              ReflectionFlag.ConstructorProperty isConstructorProperty).setFlag
              ReflectionFlag.Exported isExported
          let child := setupDeclaration context flagged node
          { result := some child, children := children ++ [child],
            registered := [child], events := [child] }
        | some (i, existing) =>
          let m := mergeDeclarations context existing node kind
          if m.2 = true then
            { result := some m.1, children := children.set i m.1,
              registered := [], events := [m.1] }
          else
            { result := none, children := children.set i m.1,
              registered := [], events := [] }

/-- One builder invocation against a fixed container: everything but the
container's children (which are threaded through a sequence of calls). -/
structure CallSpec where
  ctx : Context
  node : Node
  kind : ReflectionKind
  nameArg : Option String
deriving DecidableEq, Repr

/-- Run one invocation of `createDeclaration` on the current children of the
shared container, yielding the children afterwards. -/
def stepCall (children : List DeclarationReflection) (c : CallSpec) :
    List DeclarationReflection :=
  (createDeclaration
    { c.ctx with scope := { c.ctx.scope with children := children } }
    c.node c.kind c.nameArg).children

/-- Run a sequence of `createDeclaration` invocations against one shared
container, starting from the given children. -/
def runCalls (children : List DeclarationReflection) (calls : List CallSpec) :
    List DeclarationReflection :=
  calls.foldl stepCall children

/-- Two reflections differ in name or in static flag. -/
def pairDistinct (a b : DeclarationReflection) : Prop :=
  ¬(a.name = b.name ∧ a.flags.isStatic = b.flags.isStatic)

/-- No two children share the same `(name, isStatic)` pair. -/
def NoDupPairs (l : List DeclarationReflection) : Prop :=
  l.Pairwise pairDistinct

/-! ### Helper lemmas -/

theorem setFlag_name (r : DeclarationReflection) (fl : ReflectionFlag) (v : Bool) :
    (r.setFlag fl v).name = r.name := rfl

theorem setFlag_kind (r : DeclarationReflection) (fl : ReflectionFlag) (v : Bool) :
    (r.setFlag fl v).kind = r.kind := rfl

theorem setupDeclaration_name (ctx : Context) (r : DeclarationReflection) (node : Node) :
    (setupDeclaration ctx r node).name = r.name := by
  simp only [setupDeclaration]
  repeat' split
  all_goals rfl

theorem setupDeclaration_isStatic (ctx : Context) (r : DeclarationReflection) (node : Node) :
    (setupDeclaration ctx r node).flags.isStatic = r.flags.isStatic := by
  simp only [setupDeclaration]
  repeat' split
  all_goals rfl

theorem mergeDeclarations_name (ctx : Context) (r : DeclarationReflection)
    (node : Node) (kind : ReflectionKind) :
    (mergeDeclarations ctx r node kind).1.name = r.name := by
  simp only [mergeDeclarations]
  repeat' split
  all_goals rfl

theorem mergeDeclarations_flags (ctx : Context) (r : DeclarationReflection)
    (node : Node) (kind : ReflectionKind) :
    (mergeDeclarations ctx r node kind).1.flags = r.flags := by
  simp only [mergeDeclarations]
  repeat' split
  all_goals rfl

theorem mergeDeclarations_inheritedFrom (ctx : Context) (r : DeclarationReflection)
    (node : Node) (kind : ReflectionKind) :
    (mergeDeclarations ctx r node kind).1.inheritedFrom = r.inheritedFrom := by
  simp only [mergeDeclarations]
  repeat' split
  all_goals rfl

theorem findLastMatch_none {children : List DeclarationReflection} {name : String}
    {isStatic : Bool} (h : findLastMatch children name isStatic = none) :
    ∀ c ∈ children, ¬(c.name = name ∧ c.flags.isStatic = isStatic) := by
  induction children with
  | nil => intro c hc; cases hc
  | cons hd tl ih =>
    intro c hc
    unfold findLastMatch at h
    cases hm : findLastMatch tl name isStatic with
    | some p => rw [hm] at h; cases h
    | none =>
      rw [hm] at h
      cases hc with
      | head =>
        intro hcontra
        rw [if_pos hcontra] at h
        cases h
      | tail _ hmem => exact ih hm c hmem

theorem findLastMatch_some {children : List DeclarationReflection} {name : String}
    {isStatic : Bool} {i : Nat} {c : DeclarationReflection}
    (h : findLastMatch children name isStatic = some (i, c)) :
    children.get? i = some c ∧ c.name = name ∧ c.flags.isStatic = isStatic := by
  induction children generalizing i with
  | nil => cases h
  | cons hd tl ih =>
    unfold findLastMatch at h
    cases hm : findLastMatch tl name isStatic with
    | some p =>
      rw [hm] at h
      cases h
      obtain ⟨h1, h2, h3⟩ := ih hm
      exact ⟨h1, h2, h3⟩
    | none =>
      rw [hm] at h
      by_cases hp : hd.name = name ∧ hd.flags.isStatic = isStatic
      · rw [if_pos hp] at h
        cases h
        exact ⟨rfl, hp.1, hp.2⟩
      · rw [if_neg hp] at h
        cases h

theorem getq_set_self {α : Type} {l : List α} {i : Nat} {c : α}
    (h : l.get? i = some c) (x : α) : (l.set i x).get? i = some x := by
  induction l generalizing i with
  | nil => cases h
  | cons hd tl ih =>
    cases i with
    | zero => rfl
    | succ j => exact ih h

theorem getq_set_other {α : Type} (l : List α) (i j : Nat) (x : α) (h : i ≠ j) :
    (l.set i x).get? j = l.get? j := by
  induction l generalizing i j with
  | nil => rfl
  | cons hd tl ih =>
    cases i with
    | zero =>
      cases j with
      | zero => exact absurd rfl h
      | succ k => rfl
    | succ m =>
      cases j with
      | zero => rfl
      | succ k => exact ih m k (fun he => h (by rw [he]))

theorem pairDistinct_congr {c c' b : DeclarationReflection}
    (h1 : c'.name = c.name) (h2 : c'.flags.isStatic = c.flags.isStatic) :
    pairDistinct c b → pairDistinct c' b := by
  unfold pairDistinct
  rw [h1, h2]
  exact id

theorem pairDistinct_congr_right {c c' a : DeclarationReflection}
    (h1 : c'.name = c.name) (h2 : c'.flags.isStatic = c.flags.isStatic) :
    pairDistinct a c → pairDistinct a c' := by
  unfold pairDistinct
  rw [h1, h2]
  exact id

theorem noDupPairs_set {l : List DeclarationReflection} {i : Nat}
    {c c' : DeclarationReflection} (hnd : NoDupPairs l) (hg : l.get? i = some c)
    (h1 : c'.name = c.name) (h2 : c'.flags.isStatic = c.flags.isStatic) :
    NoDupPairs (l.set i c') := by
  induction l generalizing i with
  | nil => cases hg
  | cons hd tl ih =>
    cases i with
    | zero =>
      cases hg
      rw [List.set_cons_zero]
      cases hnd with
      | cons hhd htl =>
        exact List.Pairwise.cons (fun b hb => pairDistinct_congr h1 h2 (hhd b hb)) htl
    | succ j =>
      rw [List.set_cons_succ]
      cases hnd with
      | cons hhd htl =>
        refine List.Pairwise.cons (fun b hb => ?_) (ih htl hg)
        rcases List.mem_or_eq_of_mem_set hb with hb' | hb'
        · exact hhd b hb'
        · subst hb'
          exact pairDistinct_congr_right h1 h2 (hhd c (List.get?_mem hg))

/-! ### Concrete inputs for the scenario parts of the claims -/

/-- A class container with the given children (not the project root, own
flags all clear unless noted). -/
def classContainer (children : List DeclarationReflection) : ContainerReflection :=
  { kind := ReflectionKind.Class, flags := ReflectionFlags.empty,
    isProject := false, children := children }

/-- A plain conversion context over a class container: no inheritance walk,
nothing excluded, module mode. -/
def plainClassCtx (children : List DeclarationReflection) : Context :=
  { scope := classContainer children, isDeclaration := false,
    isExternal := false, isInherit := false, inheritParent := none,
    inherited := [], converter := { excludeNotExported := false, mode := SourceFileMode.Modules } }

def symFoo : Symbol := { id := 1, name := "foo" }

def symX : Symbol := { id := 2, name := "x" }

/-- The class-declaration body node of the base type being walked. -/
def baseClassCore : NodeCore :=
  { id := 10, kind := SyntaxKind.ClassDeclaration, modifiers := ModifierFlags.empty,
    symbol := none, localSymbol := none, questionToken := false }

/-- A constructor body node inside the class declaration. -/
def ctorCore : NodeCore :=
  { id := 11, kind := SyntaxKind.Constructor, modifiers := ModifierFlags.empty,
    symbol := none, localSymbol := none, questionToken := false }

/-- A method node named `foo`, parented by the class-declaration body. -/
def methodFooNode : Node :=
  { self := { id := 12, kind := SyntaxKind.Other, modifiers := ModifierFlags.empty,
              symbol := some symFoo, localSymbol := none, questionToken := false },
    ancestors := [baseClassCore] }

/-- A constructor-parameter property node named `x` (immediate parent: the
constructor). -/
def ctorParamXNode : Node :=
  { self := { id := 13, kind := SyntaxKind.Other, modifiers := ModifierFlags.empty,
              symbol := some symX, localSymbol := none, questionToken := false },
    ancestors := [ctorCore, baseClassCore] }

/-- An existing (non-static) method child named `foo` carrying one call
signature without provenance. -/
def fooChild : DeclarationReflection :=
  { name := "foo", kind := ReflectionKind.Method, flags := ReflectionFlags.empty,
    inheritedFrom := none, overwrites := none,
    signatures := [{ inheritedFrom := none, overwrites := none }] }

/-- The inheritance-walk context of the override scenario: the derived type
already declared `foo`, the walk source is the parent of `methodFooNode`. -/
def inheritCtx : Context :=
  { scope := classContainer [fooChild], isDeclaration := false,
    isExternal := false, isInherit := true,
    inheritParent := methodFooNode.parent, inherited := ["foo"],
    converter := { excludeNotExported := false, mode := SourceFileMode.Modules } }

/-- A private static method node (parented by the class-declaration body). -/
def privateStaticMethodNode : Node :=
  { self := { id := 14, kind := SyntaxKind.Other,
              modifiers := { ModifierFlags.empty with Private := true, Static := true },
              symbol := some symFoo, localSymbol := none, questionToken := false },
    ancestors := [baseClassCore] }

/-- The exclusion-scenario context: unexported class container, converter
configured to exclude non-exported declarations. -/
def excludeCtx : Context :=
  { scope := classContainer [], isDeclaration := false,
    isExternal := false, isInherit := false, inheritParent := none,
    inherited := [],
    converter := { excludeNotExported := true, mode := SourceFileMode.Modules } }

/-- A module container holding one child named `m` of Module kind. -/
def moduleChild : DeclarationReflection :=
  { name := "m", kind := ReflectionKind.Module, flags := ReflectionFlags.empty,
    inheritedFrom := none, overwrites := none, signatures := [] }

/-- A context whose scope is a module container with the single child `m`
(the class-merged-with-namespace scenario). -/
def moduleMergeCtx (children : List DeclarationReflection) : Context :=
  { scope := { kind := ReflectionKind.Module, flags := ReflectionFlags.empty,
               isProject := false, children := children },
    isDeclaration := false, isExternal := false, isInherit := false,
    inheritParent := none, inherited := [],
    converter := { excludeNotExported := false, mode := SourceFileMode.Modules } }

/-- A node named `m` with no parent and no modifiers. -/
def mNode : Node :=
  { self := { id := 15, kind := SyntaxKind.Other, modifiers := ModifierFlags.empty,
              symbol := some { id := 3, name := "m" }, localSymbol := none,
              questionToken := false },
    ancestors := [] }

/-- A node with no symbol, no local symbol (an unnamed declaration). -/
def unnamedNode : Node :=
  { self := { id := 16, kind := SyntaxKind.Other, modifiers := ModifierFlags.empty,
              symbol := none, localSymbol := none, questionToken := false },
    ancestors := [] }

theorem noDupPairs_append {l : List DeclarationReflection}
    {x : DeclarationReflection} (hnd : NoDupPairs l)
    (hno : ∀ c ∈ l, ¬(c.name = x.name ∧ c.flags.isStatic = x.flags.isStatic)) :
    NoDupPairs (l ++ [x]) := by
  unfold NoDupPairs
  rw [List.pairwise_append]
  refine ⟨hnd, List.pairwise_singleton _ _, fun a ha b hb => ?_⟩
  rw [List.mem_singleton] at hb
  subst hb
  exact hno a ha

theorem flagged_isStatic (blank : DeclarationReflection) (s p c e : Bool) :
    ((((blank.setFlag ReflectionFlag.Static s).setFlag
        ReflectionFlag.Private p).setFlag
        ReflectionFlag.ConstructorProperty c).setFlag
        ReflectionFlag.Exported e).flags.isStatic = s := rfl

/-- One `createDeclaration` invocation preserves distinctness of the
`(name, isStatic)` pairs of the container's children. -/
theorem createDeclaration_step_noDup (ctx : Context) (node : Node)
    (kind : ReflectionKind) (nameArg : Option String)
    (h : NoDupPairs ctx.scope.children) :
    NoDupPairs (createDeclaration ctx node kind nameArg).children := by
  simp only [createDeclaration]
  split
  · exact h
  · split
    · exact h
    · split
      · exact h
      · split
        · rename_i name hname hex hpriv hfind
          refine noDupPairs_append h ?_
          intro c hc
          rw [setupDeclaration_name, setFlag_name, setFlag_name, setFlag_name, setFlag_name,
            setupDeclaration_isStatic, flagged_isStatic]
          exact findLastMatch_none hfind c hc
        · rename_i name hname hex hpriv i existing hfind
          obtain ⟨hg, hn, hs⟩ := findLastMatch_some hfind
          have hmn := mergeDeclarations_name ctx existing node kind
          have hmf := mergeDeclarations_flags ctx existing node kind
          split
          · exact noDupPairs_set h hg hmn (by rw [hmf])
          · exact noDupPairs_set h hg hmn (by rw [hmf])

/-- C1: for every container and every sequence of `createDeclaration`
invocations against it, the container's children never contain two
declaration reflections with the same `(name, isStatic)` pair: a new child
is appended only when the scan over the existing children finds no child
whose name and static flag both equal the resolved pair. -/
theorem runCalls_preserves_noDupPairs (start : List DeclarationReflection)
    (calls : List CallSpec) (h : NoDupPairs start) :
    NoDupPairs (runCalls start calls) := by
  induction calls generalizing start with
  | nil => exact h
  | cons c cs ih =>
    exact ih (stepCall start c) (createDeclaration_step_noDup _ c.node c.kind c.nameArg h)

/-- Witness for C1 at a concrete two-call sequence starting from an empty
container. -/
theorem runCalls_preserves_noDupPairs_witness :
    NoDupPairs (runCalls []
      [{ ctx := plainClassCtx [], node := ctorParamXNode,
         kind := ReflectionKind.Property, nameArg := none },
       { ctx := plainClassCtx [], node := methodFooNode,
         kind := ReflectionKind.Method, nameArg := none }]) :=
  runCalls_preserves_noDupPairs [] _ List.Pairwise.nil

/-- C2: kind reconciliation on merge follows the fixed precedence
`Module < Enum < Class` and is monotonic and one-directional. With rank
`jsIndexOf kindWeights` (so a kind not in the ranking list has rank `-1`),
the merged reflection's kind equals the incoming kind exactly when the
incoming kind has strictly higher rank, and equals the existing kind
otherwise; in particular merging a Module-kind reflection with an incoming
Class node upgrades it to Class, and merging that Class-kind reflection
afterwards with an incoming Module node leaves it Class. -/
theorem mergeDeclarations_kind_reconciliation :
    (∀ (ctx : Context) (r : DeclarationReflection) (node : Node) (kind : ReflectionKind),
      (mergeDeclarations ctx r node kind).1.kind =
        if jsIndexOf kindWeights kind > jsIndexOf kindWeights r.kind then kind
        else r.kind)
    ∧ (mergeDeclarations (moduleMergeCtx [moduleChild]) moduleChild mNode
        ReflectionKind.Class).1.kind = ReflectionKind.Class
    ∧ (mergeDeclarations (moduleMergeCtx [moduleChild])
        (mergeDeclarations (moduleMergeCtx [moduleChild]) moduleChild mNode
          ReflectionKind.Class).1
        mNode ReflectionKind.Module).1.kind = ReflectionKind.Class := by
  refine ⟨?_, by decide, by decide⟩
  intro ctx r node kind
  by_cases h : r.kind = kind
  · have hk : (mergeDeclarations ctx r node kind).1.kind = r.kind := by
      simp only [mergeDeclarations, if_pos h]
      repeat' split
      all_goals rfl
    rw [hk, h]
    simp
  · by_cases hw : jsIndexOf kindWeights kind > jsIndexOf kindWeights r.kind
    · have hk : (mergeDeclarations ctx r node kind).1.kind = kind := by
        simp only [mergeDeclarations, if_neg h, if_pos hw]
        repeat' split
        all_goals rfl
      rw [hk, if_pos hw]
    · have hk : (mergeDeclarations ctx r node kind).1.kind = r.kind := by
        simp only [mergeDeclarations, if_neg h, if_neg hw]
        repeat' split
        all_goals rfl
      rw [hk, if_neg hw]

/-- C3: when the resolved export value is `false` and the converter is
configured to exclude non-exported declarations, `createDeclaration`
produces no reflection, leaves the children untouched and fires no event —
for every node, so in particular regardless of its private and static
modifiers (the exclusion is decided before private and static
resolution). -/
theorem createDeclaration_excludeNotExported (ctx : Context) (node : Node)
    (kind : ReflectionKind) (nameArg : Option String)
    (hx : resolveExported ctx ctx.scope node kind = false)
    (he : ctx.converter.excludeNotExported = true) :
    (createDeclaration ctx node kind nameArg).result = none ∧
    (createDeclaration ctx node kind nameArg).children = ctx.scope.children ∧
    (createDeclaration ctx node kind nameArg).events = [] := by
  simp only [createDeclaration]
  split
  · exact ⟨rfl, rfl, rfl⟩
  · split
    · exact ⟨rfl, rfl, rfl⟩
    · rename_i hcond
      exact absurd ⟨hx, he⟩ hcond

/-- Witness for C3: the spec scenario — an unexported class container, a
private static method node, kind Method, `excludeNotExported = true` — gives
no reflection. -/
theorem createDeclaration_excludeNotExported_witness :
    (createDeclaration excludeCtx privateStaticMethodNode ReflectionKind.Method
      none).result = none ∧
    (createDeclaration excludeCtx privateStaticMethodNode ReflectionKind.Method
      none).children = excludeCtx.scope.children ∧
    (createDeclaration excludeCtx privateStaticMethodNode ReflectionKind.Method
      none).events = [] :=
  createDeclaration_excludeNotExported excludeCtx privateStaticMethodNode
    ReflectionKind.Method none (by decide) (by decide)

/-- C4: a node carrying an ambient modifier always resolves
`isExported = true`, for every context, container and kind — hence
regardless of the container's exported state and of any explicit export
modifier on the node. -/
theorem resolveExported_ambient (ctx : Context) (container : ContainerReflection)
    (node : Node) (kind : ReflectionKind)
    (h : (getCombinedModifierFlags node).Ambient = true) :
    resolveExported ctx container node kind = true := by
  simp only [resolveExported]
  rw [if_pos (Or.inr (Or.inr (Or.inl h)))]

/-- An ambient declaration node (no explicit export modifier). -/
def ambientNode : Node :=
  { self := { id := 17, kind := SyntaxKind.Other,
              modifiers := { ModifierFlags.empty with Ambient := true },
              symbol := some symFoo, localSymbol := none, questionToken := false },
    ancestors := [] }

/-- Witness for C4: the ambient node resolves exported even inside an
unexported class container. -/
theorem resolveExported_ambient_witness :
    resolveExported (plainClassCtx []) (classContainer []) ambientNode
      ReflectionKind.Variable = true :=
  resolveExported_ambient (plainClassCtx []) (classContainer []) ambientNode
    ReflectionKind.Variable (by decide)

/-- C5: while `context.isInherit` is true, a node carrying an explicit
private modifier never yields a reflection from `createDeclaration` — the
children are untouched and no event fires. -/
theorem createDeclaration_private_inherit (ctx : Context) (node : Node)
    (kind : ReflectionKind) (nameArg : Option String)
    (hp : (getCombinedModifierFlags node).Private = true)
    (hi : ctx.isInherit = true) :
    (createDeclaration ctx node kind nameArg).result = none ∧
    (createDeclaration ctx node kind nameArg).children = ctx.scope.children ∧
    (createDeclaration ctx node kind nameArg).events = [] := by
  simp only [createDeclaration]
  split
  · exact ⟨rfl, rfl, rfl⟩
  · split
    · exact ⟨rfl, rfl, rfl⟩
    · split
      · exact ⟨rfl, rfl, rfl⟩
      · rename_i hcond
        exact absurd ⟨hi, hp⟩ hcond

/-- Witness for C5: a private method node during an inheritance walk
produces nothing. -/
theorem createDeclaration_private_inherit_witness :
    (createDeclaration inheritCtx privateStaticMethodNode ReflectionKind.Method
      none).result = none ∧
    (createDeclaration inheritCtx privateStaticMethodNode ReflectionKind.Method
      none).children = inheritCtx.scope.children ∧
    (createDeclaration inheritCtx privateStaticMethodNode ReflectionKind.Method
      none).events = [] :=
  createDeclaration_private_inherit inheritCtx privateStaticMethodNode
    ReflectionKind.Method none (by decide) (by decide)

set_option maxHeartbeats 1000000 in
/-- C6: `inheritedFrom` and `overwrites` are write-once. On a reflection
whose `inheritedFrom` is already set, `setupDeclaration` leaves it (and the
signatures set alongside it) unchanged; on a reflection whose `overwrites`
is already set, `mergeDeclarations` leaves it (and the signatures) unchanged. -/
theorem provenance_write_once :
    (∀ (ctx : Context) (r : DeclarationReflection) (node : Node) (ref : ReferenceType),
      r.inheritedFrom = some ref →
      (setupDeclaration ctx r node).inheritedFrom = some ref ∧
      (setupDeclaration ctx r node).signatures = r.signatures)
    ∧ (∀ (ctx : Context) (r : DeclarationReflection) (node : Node)
        (kind : ReflectionKind) (ref : ReferenceType),
      r.overwrites = some ref →
      (mergeDeclarations ctx r node kind).1.overwrites = some ref ∧
      (mergeDeclarations ctx r node kind).1.signatures = r.signatures) := by
  constructor
  · intro ctx r node ref h
    constructor
    · simp only [setupDeclaration]
      split
      · split
        · rename_i h2
          have h2x : r.inheritedFrom = none := h2
          rw [h] at h2x
          cases h2x
        · exact h
      · exact h
    · simp only [setupDeclaration]
      split
      · split
        · rename_i h2
          have h2x : r.inheritedFrom = none := h2
          rw [h] at h2x
          cases h2x
        · rfl
      · rfl
  · intro ctx r node kind ref h
    constructor
    · simp only [mergeDeclarations]
      repeat' split
      all_goals
        first
        | exact h
        | (rename_i h2
           first
           | (have h2x : r.overwrites = none := h2
              rw [h] at h2x
              cases h2x)
           | exact h)
    · simp only [mergeDeclarations]
      repeat' split
      all_goals
        first
        | rfl
        | (rename_i h2
           first
           | (have h2x : r.overwrites = none := h2
              rw [h] at h2x
              cases h2x)
           | rfl)

/-- The reference the override scenario records. -/
def refFoo : ReferenceType := createReferenceType (some symFoo)

/-- A `foo` child whose `inheritedFrom` is already set. -/
def fooChildInh : DeclarationReflection :=
  { fooChild with inheritedFrom := some refFoo }

/-- A `foo` child whose `overwrites` is already set. -/
def fooChildOvr : DeclarationReflection :=
  { fooChild with overwrites := some refFoo }

/-- Witness for C6 at concrete inputs: a second qualifying setup/merge leaves
the already-set provenance values unchanged. -/
theorem provenance_write_once_witness :
    (setupDeclaration inheritCtx fooChildInh methodFooNode).inheritedFrom = some refFoo ∧
    (mergeDeclarations inheritCtx fooChildOvr methodFooNode
      ReflectionKind.Method).1.overwrites = some refFoo :=
  ⟨(provenance_write_once.1 inheritCtx fooChildInh methodFooNode refFoo rfl).1,
   (provenance_write_once.2 inheritCtx fooChildOvr methodFooNode
      ReflectionKind.Method refFoo rfl).1⟩

theorem jsIndexOfAux_nonneg {α : Type} [DecidableEq α] {l : List α} {a : α}
    (hmem : a ∈ l) : ∀ {i : Int}, 0 ≤ i → 0 ≤ jsIndexOfAux l a i := by
  induction l with
  | nil => cases hmem
  | cons x xs ih =>
    intro i hi
    unfold jsIndexOfAux
    by_cases hx : x = a
    · rw [if_pos hx]
      exact hi
    · rw [if_neg hx]
      cases hmem with
      | head => exact absurd rfl hx
      | tail _ hmem2 => exact ih hmem2 (by omega)

theorem jsIndexOf_ne_neg_one {α : Type} [DecidableEq α] {l : List α} {a : α}
    (hmem : a ∈ l) : jsIndexOf l a ≠ -1 := by
  have h := jsIndexOfAux_nonneg hmem (le_refl (0 : Int))
  unfold jsIndexOf
  omega

/-- The override branch of `mergeDeclarations`: no usable result, and
`overwrites` stamped on the reflection and all its signatures. -/
theorem mergeOverride_aux (ctx : Context) (r : DeclarationReflection) (node : Node)
    (kind : ReflectionKind) (hi : ctx.isInherit = true)
    (hmem : r.name ∈ ctx.inherited)
    (hp : node.parent = ctx.inheritParent ∨ r.flags.isConstructorProperty = true)
    (ho : r.overwrites = none) :
    (mergeDeclarations ctx r node kind).2 = false ∧
    (mergeDeclarations ctx r node kind).1.overwrites
      = some (createReferenceType node.symbol) ∧
    ∀ s ∈ (mergeDeclarations ctx r node kind).1.signatures,
      s.overwrites = some (createReferenceType node.symbol) := by
  have hjs : jsIndexOf ctx.inherited r.name ≠ -1 := jsIndexOf_ne_neg_one hmem
  refine ⟨?_, ?_, ?_⟩
  · simp only [mergeDeclarations]
    repeat' split
    all_goals
      first
      | rfl
      | (rename_i hcond
         exact absurd ⟨hi, hjs, hp⟩ hcond)
  · simp only [mergeDeclarations]
    repeat' split
    all_goals
      first
      | rfl
      | (rename_i h2
         have h2x : r.overwrites = none := ho
         exact absurd h2x h2)
      | (rename_i hcond
         exact absurd ⟨hi, hjs, hp⟩ hcond)
  · simp only [mergeDeclarations]
    repeat' split
    all_goals
      first
      | (rename_i h2
         have h2x : r.overwrites = none := ho
         exact absurd h2x h2)
      | (rename_i hcond
         exact absurd ⟨hi, hjs, hp⟩ hcond)
      | (intro s hs
         have hs2 : s ∈ r.signatures.map
             (fun t => { t with overwrites := some (createReferenceType node.symbol) }) := hs
         rw [List.mem_map] at hs2
         obtain ⟨t, _, hteq⟩ := hs2
         rw [← hteq])

/-- The merged `foo` child of the override scenario: `overwrites` recorded on
the reflection and on its one call signature. -/
def fooChildAfter : DeclarationReflection :=
  { fooChild with
    overwrites := some refFoo,
    signatures := [{ inheritedFrom := none, overwrites := some refFoo }] }

/-- C7: during an inheritance walk, when the existing reflection's name is
among the names already declared on the derived type and the incoming
node's parent is the inheritance source (or the existing reflection is a
constructor property), the merge records `overwrites` — pointing at the
originating symbol — on the reflection and on every one of its call
signatures and yields no usable result; in the concrete spec scenario
(`inherited = ["foo"]`, existing child `foo`, node parented by the walk
source) `createDeclaration` returns nothing while the child in the children
list carries the recorded `overwrites`. -/
theorem mergeDeclarations_override :
    (∀ (ctx : Context) (r : DeclarationReflection) (node : Node) (kind : ReflectionKind),
      ctx.isInherit = true →
      r.name ∈ ctx.inherited →
      (node.parent = ctx.inheritParent ∨ r.flags.isConstructorProperty = true) →
      r.overwrites = none →
      (mergeDeclarations ctx r node kind).2 = false ∧
      (mergeDeclarations ctx r node kind).1.overwrites
        = some (createReferenceType node.symbol) ∧
      ∀ s ∈ (mergeDeclarations ctx r node kind).1.signatures,
        s.overwrites = some (createReferenceType node.symbol))
    ∧ (createDeclaration inheritCtx methodFooNode ReflectionKind.Method none).result
        = none
    ∧ (createDeclaration inheritCtx methodFooNode ReflectionKind.Method none).children
        = [fooChildAfter] :=
  ⟨fun ctx r node kind hi hmem hp ho => mergeOverride_aux ctx r node kind hi hmem hp ho,
   by decide, by decide⟩

/-- Witness for C7 applying the universal part at the concrete override
scenario. -/
theorem mergeDeclarations_override_witness :
    (mergeDeclarations inheritCtx fooChild methodFooNode ReflectionKind.Method).2 = false ∧
    (mergeDeclarations inheritCtx fooChild methodFooNode
      ReflectionKind.Method).1.overwrites = some (createReferenceType methodFooNode.symbol) ∧
    ∀ s ∈ (mergeDeclarations inheritCtx fooChild methodFooNode
      ReflectionKind.Method).1.signatures,
      s.overwrites = some (createReferenceType methodFooNode.symbol) :=
  mergeDeclarations_override.1 inheritCtx fooChild methodFooNode ReflectionKind.Method
    rfl (by decide) (Or.inl (by decide)) rfl

/-- C8: static resolution inside a Class container, for kinds outside
`nonStaticKinds`: a node whose immediate parent is a constructor resolves
`isConstructorProperty = true` and is not forced static by that rule (the
static flag stays the explicit static modifier); a node whose parent is
absent or is neither a constructor nor a class-declaration body is forced
static. In the concrete spec scenario — class container, constructor
parameter property `x`, no existing child — the created reflection has
`isConstructorProperty = true` and `isStatic = false`. -/
theorem resolveStatic_class_rules :
    (∀ (container : ContainerReflection) (node : Node) (kind : ReflectionKind) (p : Node),
      kind ∉ nonStaticKinds →
      container.kind = ReflectionKind.Class →
      node.parent = some p →
      p.kind = SyntaxKind.Constructor →
      resolveStatic container node kind = (true, (getCombinedModifierFlags node).Static))
    ∧ (∀ (container : ContainerReflection) (node : Node) (kind : ReflectionKind),
      kind ∉ nonStaticKinds →
      container.kind = ReflectionKind.Class →
      (node.parent = none ∨ ∃ p, node.parent = some p ∧
        p.kind ≠ SyntaxKind.Constructor ∧ p.kind ≠ SyntaxKind.ClassDeclaration) →
      resolveStatic container node kind = (false, true))
    ∧ (createDeclaration (plainClassCtx []) ctorParamXNode ReflectionKind.Property
        none).result.map (fun c => (c.flags.isConstructorProperty, c.flags.isStatic))
        = some (true, false) := by
  refine ⟨?_, ?_, by decide⟩
  · intro container node kind p hk hc hnp hpk
    simp [resolveStatic, hk, hc, hnp, hpk]
  · intro container node kind hk hc hcase
    rcases hcase with hnp | ⟨p, hnp, h1, h2⟩
    · simp [resolveStatic, hk, hc, hnp]
    · simp [resolveStatic, hk, hc, hnp, h1, h2]

/-- Witness for C8 applying both universal parts at concrete inputs: the
constructor-parameter node, and a parentless node inside a class container. -/
theorem resolveStatic_class_rules_witness :
    resolveStatic (classContainer []) ctorParamXNode ReflectionKind.Property
      = (true, (getCombinedModifierFlags ctorParamXNode).Static) ∧
    resolveStatic (classContainer []) mNode ReflectionKind.Method = (false, true) :=
  ⟨resolveStatic_class_rules.1 (classContainer []) ctorParamXNode ReflectionKind.Property
      { self := ctorCore, ancestors := [baseClassCore] }
      (by decide) rfl (by decide) rfl,
   resolveStatic_class_rules.2.1 (classContainer []) mNode ReflectionKind.Method
      (by decide) rfl (Or.inl (by decide))⟩

theorem mergeDeclarations_sig_inheritedFrom (ctx : Context) (r : DeclarationReflection)
    (node : Node) (kind : ReflectionKind) :
    (mergeDeclarations ctx r node kind).1.signatures.map Signature.inheritedFrom
      = r.signatures.map Signature.inheritedFrom := by
  simp only [mergeDeclarations]
  repeat' split
  all_goals
    first
    | rfl
    | (show (r.signatures.map
          (fun t => { t with overwrites := some (createReferenceType node.symbol) })).map
          Signature.inheritedFrom = r.signatures.map Signature.inheritedFrom
       rw [List.map_map]
       rfl)

theorem getq_some_lt {α : Type} {l : List α} {j : Nat} {c : α}
    (h : l.get? j = some c) : j < l.length := by
  induction l generalizing j with
  | nil => cases h
  | cons hd tl ih =>
    cases j with
    | zero => exact Nat.succ_pos _
    | succ k => exact Nat.succ_lt_succ (ih h)

theorem getq_append {α : Type} {l : List α} (l2 : List α) {j : Nat}
    (h : j < l.length) : (l ++ l2).get? j = l.get? j := by
  induction l generalizing j with
  | nil => cases h
  | cons hd tl ih =>
    cases j with
    | zero => rfl
    | succ k => exact ih (Nat.lt_of_succ_lt_succ h)

theorem getq_inj {α : Type} {l : List α} {j : Nat} {c cAfter : α}
    (h1 : l.get? j = some c) (h2 : l.get? j = some cAfter) : cAfter = c := by
  rw [h1] at h2
  cases h2
  rfl

theorem getq_append_inj {α : Type} {l l2 : List α} {j : Nat} {c cAfter : α}
    (h1 : l.get? j = some c) (h2 : (l ++ l2).get? j = some cAfter) : cAfter = c := by
  rw [getq_append l2 (getq_some_lt h1), h1] at h2
  cases h2
  rfl

theorem getq_set_inj_eq {α : Type} {l : List α} {i : Nat} {x c cAfter : α}
    (h1 : l.get? i = some c) (h2 : (l.set i x).get? i = some cAfter) : cAfter = x := by
  rw [getq_set_self h1 x] at h2
  cases h2
  rfl

theorem getq_set_inj_ne {α : Type} {l : List α} {i j : Nat} {x c cAfter : α}
    (hij : i ≠ j) (h1 : l.get? j = some c) (h2 : (l.set i x).get? j = some cAfter) :
    cAfter = c := by
  rw [getq_set_other l i j x hij, h1] at h2
  cases h2
  rfl

/-- C9: the merge path never modifies the existing reflection's flags: the
merged reflection keeps the flags, name, `inheritedFrom` and the signatures'
`inheritedFrom` values of the existing one (only its kind and `overwrites`
provenance may change), and for every `createDeclaration` invocation every
child that already sat at some position of the container keeps its flags —
flags are computed at creation time only. -/
theorem merge_frame :
    (∀ (ctx : Context) (r : DeclarationReflection) (node : Node) (kind : ReflectionKind),
      (mergeDeclarations ctx r node kind).1.flags = r.flags ∧
      (mergeDeclarations ctx r node kind).1.name = r.name ∧
      (mergeDeclarations ctx r node kind).1.inheritedFrom = r.inheritedFrom ∧
      (mergeDeclarations ctx r node kind).1.signatures.map Signature.inheritedFrom
        = r.signatures.map Signature.inheritedFrom)
    ∧ (∀ (ctx : Context) (node : Node) (kind : ReflectionKind) (nameArg : Option String)
        (j : Nat) (c cAfter : DeclarationReflection),
      ctx.scope.children.get? j = some c →
      (createDeclaration ctx node kind nameArg).children.get? j = some cAfter →
      cAfter.flags = c.flags) := by
  constructor
  · intro ctx r node kind
    exact ⟨mergeDeclarations_flags ctx r node kind,
      mergeDeclarations_name ctx r node kind,
      mergeDeclarations_inheritedFrom ctx r node kind,
      mergeDeclarations_sig_inheritedFrom ctx r node kind⟩
  · intro ctx node kind nameArg j c cAfter hg1 hg2
    revert hg2
    simp only [createDeclaration]
    split
    · intro hg2
      exact congrArg DeclarationReflection.flags (getq_inj hg1 hg2)
    · split
      · intro hg2
        exact congrArg DeclarationReflection.flags (getq_inj hg1 hg2)
      · split
        · intro hg2
          exact congrArg DeclarationReflection.flags (getq_inj hg1 hg2)
        · split
          · intro hg2
            exact congrArg DeclarationReflection.flags (getq_append_inj hg1 hg2)
          · rename_i name hname hex hpriv i existing hfind
            obtain ⟨hgi, _, _⟩ := findLastMatch_some hfind
            by_cases hij : i = j
            · subst hij
              have hec : existing = c := getq_inj hg1 hgi
              split
              · intro hg2
                have hca := getq_set_inj_eq hg1 hg2
                rw [hca, mergeDeclarations_flags, hec]
              · intro hg2
                have hca := getq_set_inj_eq hg1 hg2
                rw [hca, mergeDeclarations_flags, hec]
            · split
              · intro hg2
                exact congrArg DeclarationReflection.flags (getq_set_inj_ne hij hg1 hg2)
              · intro hg2
                exact congrArg DeclarationReflection.flags (getq_set_inj_ne hij hg1 hg2)

/-- Witness for C9 applying the frame part at the concrete merge scenario:
the module child keeps its flags across the kind-upgrading merge. -/
theorem merge_frame_witness :
    ({ moduleChild with kind := ReflectionKind.Class } :
      DeclarationReflection).flags = moduleChild.flags :=
  merge_frame.2 (moduleMergeCtx [moduleChild]) mNode ReflectionKind.Class none 0
    moduleChild { moduleChild with kind := ReflectionKind.Class } rfl (by decide)

/-- C10: the creation notification fires exactly on the invocations whose
result is a reflection: the event payload list always equals the result
viewed as a list — nonempty for first-time creations and for merges
contributing nothing new beyond kind reconciliation, empty for unnamed
nodes, export exclusion, private-during-inheritance exclusion and
override-rejected merges (each shown on a concrete case). -/
theorem createDeclaration_event_iff_result :
    (∀ (ctx : Context) (node : Node) (kind : ReflectionKind) (nameArg : Option String),
      (createDeclaration ctx node kind nameArg).events
        = (createDeclaration ctx node kind nameArg).result.toList)
    ∧ (createDeclaration (moduleMergeCtx [moduleChild]) mNode ReflectionKind.Class
        none).events = [{ moduleChild with kind := ReflectionKind.Class }]
    ∧ (createDeclaration (plainClassCtx []) unnamedNode ReflectionKind.Method
        none).events = []
    ∧ (createDeclaration excludeCtx privateStaticMethodNode ReflectionKind.Method
        none).events = []
    ∧ (createDeclaration inheritCtx privateStaticMethodNode ReflectionKind.Method
        none).events = []
    ∧ (createDeclaration inheritCtx methodFooNode ReflectionKind.Method
        none).events = [] := by
  refine ⟨?_, by decide, by decide, by decide, by decide, by decide⟩
  intro ctx node kind nameArg
  simp only [createDeclaration]
  repeat' split
  all_goals rfl

end Typedoc
